import Mathlib

/-!
Verification development for the YouTube comment sentiment-analysis pipeline.

The Python sources are shallowly embedded as Lean definitions:
strings are Lean `String` (a list of Unicode code points, matching
Python 3 `str` and its `len`), floats are modelled as exact rationals
`ℚ`, dictionaries with optional keys become structures with `Option`
fields, external providers (YouTube API, comment downloader, Groq LLM,
HuggingFace pipeline, `random.choice`) become explicit oracle
parameters, and Python's in-place mutation of comment dicts is
modelled by an explicit heap (`List Comment` indexed by addresses).
-/

/-- Python `\s` for the ASCII range: the whitespace characters recognised
by `re` and by `str.strip()` / `str.split()`. -/
def pyIsSpace (c : Char) : Bool :=
  c = ' ' || c = '\t' || c = '\n' || c = '\x0d' || c = '\x0b' || c = '\x0c'

/-- Python `\w` (word character): alphanumeric or underscore. -/
def isWordChar (c : Char) : Bool :=
  c.isAlphanum || c = '_'

/-- The characters kept by `remove_special_characters`' first substitution
`re.sub(r'[^\w\s.,!?-]', '', text)`: word characters, whitespace and the
punctuation `.,!?-`. -/
def keepChar (c : Char) : Bool :=
  isWordChar c || pyIsSpace c || c = '.' || c = ',' || c = '!' || c = '?' || c = '-'

/-- One pass of `re.sub(r'\s+', ' ', text)` as a two-state scanner: `inRun`
records whether the previous character was part of a whitespace run that
has already been replaced by a single `' '`. -/
def collapseAux : Bool → List Char → List Char
  | _, [] => []
  | inRun, c :: rest =>
    if pyIsSpace c then
      if inRun then collapseAux true rest else ' ' :: collapseAux true rest
    else c :: collapseAux false rest

/-- `re.sub(r'\s+', ' ', text)`: every maximal whitespace run becomes one space. -/
def collapseSpaces (l : List Char) : List Char :=
  collapseAux false l

/-- Python `str.strip()` on a character list: drop leading and trailing
whitespace. -/
def stripList (l : List Char) : List Char :=
  ((l.dropWhile pyIsSpace).reverse.dropWhile pyIsSpace).reverse

/-- Python `str.strip()`. -/
def pyStrip (s : String) : String :=
  ⟨stripList s.data⟩

/-- Python `str.lower()` (ASCII case mapping). -/
def pyLower (s : String) : String :=
  ⟨s.data.map Char.toLower⟩

/-- Python `s[:n]` on strings (first `n` code points). -/
def pyTake (n : Nat) (s : String) : String :=
  ⟨s.data.take n⟩

/-- Python's `in` operator on strings: contiguous-substring containment. -/
def pyIn (needle hay : String) : Prop :=
  needle.data <:+: hay.data

instance (needle hay : String) : Decidable (pyIn needle hay) :=
  List.decidableInfix needle.data hay.data

/-- Helper for Python `str.split()`: accumulates the current word (reversed)
and splits at whitespace, discarding empty fragments. -/
def splitAux : List Char → List Char → List (List Char)
  | [], cur => if cur = [] then [] else [cur.reverse]
  | c :: rest, cur =>
    if pyIsSpace c then
      if cur = [] then splitAux rest [] else cur.reverse :: splitAux rest []
    else splitAux rest (c :: cur)

/-- Python `str.split()` with no argument: split on whitespace runs. -/
def pySplit (s : String) : List String :=
  (splitAux s.data []).map (fun l => ⟨l⟩)

/-- `remove_special_characters` from `preprocess.py`: strip characters
outside `[\w\s.,!?-]`, collapse whitespace runs to single spaces, and trim. -/
def remove_special_characters (s : String) : String :=
  ⟨stripList (collapseSpaces (s.data.filter keepChar))⟩

/-- Characters consumable by the URL regex of `remove_urls` after the
scheme: `[a-zA-Z]`, `[0-9]`, the range `[$-_]` (which contains `@.&+%`),
and `!*(),` (the `%XX` escape alternative only consumes characters that
are already in this set). -/
def urlChar (c : Char) : Bool :=
  c.isAlpha || c.isDigit || ('$' ≤ c && c ≤ '_') || c = '!' || c = '*' || c = '(' || c = ')' || c = ','

/-- Length of the URL scheme `http[s]?://` matched at the head of `l`,
if any. -/
def schemeLen (l : List Char) : Option Nat :=
  if List.isPrefixOf "https://".data l then some 8
  else if List.isPrefixOf "http://".data l then some 7
  else none

/-- Number of characters matched by the whole URL regex at the head of
`l` (scheme plus a non-empty greedy run of URL characters), if it
matches here. -/
def matchUrl (l : List Char) : Option Nat :=
  match schemeLen l with
  | none => none
  | some k =>
    let run := ((l.drop k).takeWhile urlChar).length
    if run = 0 then none else some (k + run)

/-- `re.sub` scanning loop for the URL pattern of `remove_urls`: at each
position, delete a match if the pattern matches there, otherwise keep the
character and advance. Each step consumes at least one character, so
`fuel := l.length` steps always complete the scan (the fuel only makes
the recursion structural). -/
def removeUrlsFuel : Nat → List Char → List Char
  | 0, l => l
  | fuel + 1, l =>
    match matchUrl l with
    | some n => removeUrlsFuel fuel (l.drop n)
    | none =>
      match l with
      | [] => []
      | c :: rest => c :: removeUrlsFuel fuel rest

/-- `remove_urls` from `preprocess.py`. -/
def remove_urls (s : String) : String :=
  ⟨removeUrlsFuel s.data.length s.data⟩

/-- Position of the first `'>'` in `l` not preceded by a newline (`.` in
`<.*?>` does not match `'\n'`), if any. -/
def findGt : List Char → Option Nat
  | [] => none
  | c :: rest =>
    if c = '>' then some 0
    else if c = '\n' then none
    else (findGt rest).map (· + 1)

/-- `re.sub(r'<.*?>', '', text)` scanning loop: at `'<'`, delete up to the
nearest `'>'` on the same line, otherwise keep the character. Each step
consumes at least one character, so `fuel := l.length` steps always
complete the scan (the fuel only makes the recursion structural). -/
def removeTagsFuel : Nat → List Char → List Char
  | 0, l => l
  | fuel + 1, l =>
    match l with
    | [] => []
    | c :: rest =>
      if c = '<' then
        match findGt rest with
        | some n => removeTagsFuel fuel (rest.drop (n + 1))
        | none => c :: removeTagsFuel fuel rest
      else c :: removeTagsFuel fuel rest

/-- `remove_html_tags` from `preprocess.py`. -/
def remove_html_tags (s : String) : String :=
  ⟨removeTagsFuel s.data.length s.data⟩

/-- Membership in the emoji/pictograph code-point ranges removed by
`remove_emojis`. -/
def emojiChar (c : Char) : Bool :=
  (0x1F600 ≤ c.toNat && c.toNat ≤ 0x1F64F) ||
  (0x1F300 ≤ c.toNat && c.toNat ≤ 0x1F5FF) ||
  (0x1F680 ≤ c.toNat && c.toNat ≤ 0x1F6FF) ||
  (0x1F1E0 ≤ c.toNat && c.toNat ≤ 0x1F1FF) ||
  (0x2702 ≤ c.toNat && c.toNat ≤ 0x27B0) ||
  (0x24C2 ≤ c.toNat && c.toNat ≤ 0x1F251)

/-- `remove_emojis` from `preprocess.py`: deleting every maximal run of
emoji characters equals deleting each emoji character. -/
def remove_emojis (s : String) : String :=
  ⟨s.data.filter (fun c => !emojiChar c)⟩

/-- `remove_stopwords_text` from `preprocess.py`. The NLTK stopword corpus
is external data, so the set is a parameter `stop` (membership of the
lowercased word in the loaded stopword set). -/
def remove_stopwords_text (stop : String → Bool) (text : String) : String :=
  String.intercalate " " ((pySplit text).filter (fun w => !stop (pyLower w)))

/-- `lemmatize_text` from `preprocess.py`. The WordNet lemmatizer is an
external model, so it is a parameter `lem`. -/
def lemmatize_text (lem : String → String) (text : String) : String :=
  String.intercalate " " ((pySplit text).map (fun w => lem (pyLower w)))

/-- `preprocess_comment` from `preprocess.py`: the fixed cleaning
sub-pipeline for one text, ending in `str.strip()`. -/
def preprocess_comment (stop : String → Bool) (lem : String → String)
    (apply_lemmatization : Bool) (text : String) : String :=
  if text = "" then ""
  else
    let t1 := remove_urls text
    let t2 := remove_html_tags t1
    let t3 := remove_emojis t2
    let t4 := remove_special_characters t3
    let t5 := pyLower t4
    let t6 := remove_stopwords_text stop t5
    let t7 := if apply_lemmatization then lemmatize_text lem t6 else t6
    pyStrip t7

/-- Two-way sentiment score distribution (the dict returned by
`map_sentiment_label`). Floats are modelled as exact rationals. -/
structure Scores where
  positive : ℚ
  negative : ℚ
deriving DecidableEq

/-- The central comment record: a Python dict with optional keys, flowing
through all pipeline stages. -/
structure Comment where
  text : Option String := none
  author : Option String := none
  likes : Option Int := none
  published : Option String := none
  original_text : Option String := none
  processed_text : Option String := none
  sentiment : Option String := none
  confidence : Option ℚ := none
  scores : Option Scores := none
  response : Option String := none
deriving DecidableEq

instance : Inhabited Comment := ⟨{}⟩

/-- `map_sentiment_label` from `sentiment_analysis.py`. -/
def map_sentiment_label (label : String) (score : ℚ) : Scores :=
  if label = "POSITIVE" then
    { positive := score, negative := 1 - score }
  else if label = "NEGATIVE" then
    { positive := 1 - score, negative := score }
  else
    { positive := 0.6, negative := 0.4 }

/-- One raw prediction `{label, score}` returned by the sentiment model
provider for one text. -/
structure Prediction where
  label : String
  score : ℚ
deriving DecidableEq

/-- The per-comment result dict produced by `classify_sentiment_batch`. -/
structure SentimentResult where
  sentiment : String
  confidence : ℚ
  scores : Scores
deriving DecidableEq

/-- The per-prediction computation in `classify_sentiment_batch`'s success
path (lines 83-96): map the raw label/score and assign the discrete tag by
the strict `>` comparison. -/
def classifyPrediction (p : Prediction) : SentimentResult :=
  let sentiment_scores := map_sentiment_label p.label p.score
  { sentiment := if sentiment_scores.positive > sentiment_scores.negative then "positive" else "negative",
    confidence := p.score,
    scores := sentiment_scores }

/-- The default result assigned to every text of a failed batch. -/
def defaultSentimentResult : SentimentResult :=
  { sentiment := "positive", confidence := 0.5, scores := { positive := 0.5, negative := 0.5 } }

/-- The batch loop of `classify_sentiment_batch`: texts are processed in
batches of 32; a successful batch maps each prediction, a failed batch
(the provider raised) yields one default result per text of the batch.
The sentiment model provider is an oracle `f` returning either the
prediction list or an exception. -/
def processBatches (f : List String → Except Unit (List Prediction)) (texts : List String) : List SentimentResult :=
  match texts with
  | [] => []
  | t :: rest =>
    let batch := (t :: rest).take 32
    let res :=
      match f batch with
      | Except.ok preds => preds.map classifyPrediction
      | Except.error _ => batch.map (fun _ => defaultSentimentResult)
    res ++ processBatches f ((t :: rest).drop 32)
termination_by texts.length
decreasing_by
  simp [List.length_drop]; omega

/-- `classify_sentiment_batch` from `sentiment_analysis.py`: returns `[]`
when no pipeline is available. -/
def classify_sentiment_batch (pl : Option (List String → Except Unit (List Prediction)))
    (texts : List String) : List SentimentResult :=
  match pl with
  | none => []
  | some f => processBatches f texts

/-- The text selected for classification for one comment in
`analyze_sentiment`: `processed_text` (falling back to `original_text`,
then `''`), replaced by the neutral placeholder when empty or
whitespace-only, and hard-truncated at 512 characters. -/
def commentToText (c : Comment) : String :=
  let text := c.processed_text.getD (c.original_text.getD "")
  if text ≠ "" ∧ 0 < (pyStrip text).length then
    if 512 < text.length then pyTake 512 text else text
  else "okay comment"

/-- Field update applied when combining one sentiment result with its
comment (`analyzed_comment.update(...)`). -/
def applySentimentResult (c : Comment) (r : SentimentResult) : Comment :=
  { c with sentiment := some r.sentiment, confidence := some r.confidence, scores := some r.scores }

/-- The merge loop of `analyze_sentiment`: comment `i` receives result `i`,
or the default result when fewer results than comments were produced. -/
def mergeResults : List Comment → List SentimentResult → List Comment
  | [], _ => []
  | c :: cs, [] => applySentimentResult c defaultSentimentResult :: mergeResults cs []
  | c :: cs, r :: rs => applySentimentResult c r :: mergeResults cs rs

/-- `analyze_sentiment` from `sentiment_analysis.py`. The cached model
loader's outcome is the oracle `pl`: `none` models `ModelUnavailable`
(load failed after all retries), in which case the source returns the
input `comments` list unchanged. -/
def analyze_sentiment (pl : Option (List String → Except Unit (List Prediction)))
    (comments : List Comment) : List Comment :=
  if comments = [] then []
  else
    match pl with
    | none => comments
    | some f =>
      let texts_to_analyze := comments.map commentToText
      let sentiment_results := classify_sentiment_batch (some f) texts_to_analyze
      mergeResults comments sentiment_results

/-- One `snippet` item of a structured-API response page. -/
structure ApiSnippet where
  textDisplay : String
  authorDisplayName : String
  likeCount : Int
  publishedAt : String

/-- One structured-API response page: items plus presence of
`nextPageToken`. -/
structure ApiResponse where
  items : List ApiSnippet
  nextPageToken : Bool

/-- The raw record built from one API snippet in `fetch_comments_api`. -/
def snippetToComment (s : ApiSnippet) : Comment :=
  { text := some s.textDisplay, author := some s.authorDisplayName,
    likes := some s.likeCount, published := some s.publishedAt }

/-- The pagination loop of `fetch_comments_api`. The API server is an
oracle from (page index, requested `maxResults`) to a response page;
`fuel` bounds the number of pages inspected (the Python loop runs until
the server stops producing page tokens). Each request asks for
`min(max_results - len(comments), 100)` items, which for the first page
equals the source's `min(max_results, 100)`. -/
def fetchApiAux (server : Nat → Nat → ApiResponse) (max_results : Nat) :
    Nat → Nat → List Comment → List Comment
  | 0, _, acc => acc
  | fuel + 1, page, acc =>
    if acc.length < max_results then
      let req := min (max_results - acc.length) 100
      let response := server page req
      let acc' := acc ++ response.items.map snippetToComment
      if response.nextPageToken ∧ acc'.length < max_results then
        fetchApiAux server max_results fuel (page + 1) acc'
      else acc'
    else acc

/-- `fetch_comments_api` from `fetch_comments.py` (successful-transport
case; a transport error returns `[]` upstream of this loop). -/
def fetch_comments_api (server : Nat → Nat → ApiResponse) (fuel max_results : Nat) : List Comment :=
  fetchApiAux server max_results fuel 0 []

/-- One item of the scraping provider's lazy comment stream. -/
structure DlComment where
  text : Option String := none
  author : Option String := none
  votes : Option Int := none
  time : Option String := none

/-- The raw record built from one downloader item. -/
def dlToComment (d : DlComment) : Comment :=
  { text := some (d.text.getD ""), author := some (d.author.getD "Unknown"),
    likes := some (d.votes.getD 0), published := some (d.time.getD "") }

/-- The accumulation loop of `fetch_comments_downloader`: stop as soon as
`max_results` records have been accumulated. The provider's stream is the
input list. -/
def fetchDlAux (max_results : Nat) : List DlComment → List Comment → List Comment
  | [], acc => acc
  | d :: stream, acc =>
    if max_results ≤ acc.length then acc
    else fetchDlAux max_results stream (acc ++ [dlToComment d])

/-- `fetch_comments_downloader` from `fetch_comments.py` (successful
case; an exception returns `[]`). -/
def fetch_comments_downloader (stream : List DlComment) (max_results : Nat) : List Comment :=
  fetchDlAux max_results stream []

/-- `preprocess_comments`' per-record enrichment: `comment.copy()` with
`original_text` and `processed_text` set. -/
def enrichComment (stop : String → Bool) (lem : String → String)
    (apply_lemmatization : Bool) (c : Comment) : Comment :=
  let original_text := c.text.getD ""
  let processed_text := preprocess_comment stop lem apply_lemmatization original_text
  { c with original_text := some original_text, processed_text := some processed_text }

/-- The retention test of `preprocess_comments`:
`len(processed_text.strip()) > 3`. -/
def keepComment (c : Comment) : Bool :=
  3 < (pyStrip (c.processed_text.getD "")).length

/-- `preprocess_comments` from `preprocess.py` (functional view of the
produced output sequence): each record is copied and enriched, and only
records whose processed text has stripped length `> 3` are kept. -/
def preprocess_comments (stop : String → Bool) (lem : String → String)
    (apply_lemmatization : Bool) : List Comment → List Comment
  | [] => []
  | c :: rest =>
    let pc := enrichComment stop lem apply_lemmatization c
    if keepComment pc then pc :: preprocess_comments stop lem apply_lemmatization rest
    else preprocess_comments stop lem apply_lemmatization rest

/-- Read a heap cell (a Python dict reference). -/
def heapGet (h : List Comment) (a : Nat) : Comment :=
  h.getD a default

/-- Write a heap cell in place. -/
def heapSet (h : List Comment) (a : Nat) (c : Comment) : List Comment :=
  h.set a c

/-- Heap-level `preprocess_comments`: `comment.copy()` allocates a fresh
cell for the enriched copy; the input cells are never written. Returns
the extended heap and the addresses of the retained copies. -/
def preprocess_comments_heap (stop : String → Bool) (lem : String → String)
    (apply_lemmatization : Bool) : List Comment → List Nat → List Comment × List Nat
  | h, [] => (h, [])
  | h, a :: as =>
    let pc := enrichComment stop lem apply_lemmatization (heapGet h a)
    let h1 := h ++ [pc]
    let res := preprocess_comments_heap stop lem apply_lemmatization h1 as
    (res.1, if keepComment pc then h.length :: res.2 else res.2)

/-- `random.choice(responses)` with an explicit random draw `choice`. -/
def pick (choice : Nat) (responses : List String) : String :=
  responses.getD (choice % responses.length) ""

/-- Appreciation templates (positive + gratitude/praise cues). -/
def gratitudeTemplates (author : String) : List String :=
  ["Thank you so much " ++ author ++ "! 😊",
   "Really appreciate it " ++ author ++ "! ❤️",
   "Thanks " ++ author ++ ", that means a lot!",
   "So glad you enjoyed it " ++ author ++ "! 🙏"]

/-- Secondary appreciation templates (positive + mild-praise cues). -/
def mildPraiseTemplates (author : String) : List String :=
  ["Thank you " ++ author ++ "! 🙌",
   "Appreciate the kind words " ++ author ++ "!",
   "Thanks for watching " ++ author ++ "! 😊"]

/-- Generic thanks templates (positive, no cue matched). -/
def genericPositiveTemplates (author : String) : List String :=
  ["Thanks " ++ author ++ "! 😊",
   "Appreciate you " ++ author ++ "! ❤️",
   "Thank you for the support " ++ author ++ "!"]

/-- Apologetic/improvement templates (negative + strong-criticism cues). -/
def criticismTemplates (author : String) : List String :=
  ["Sorry to hear that " ++ author ++ ". I'll work on improving! 🙏",
   "Thanks for the feedback " ++ author ++ ", I appreciate your honesty.",
   "I understand " ++ author ++ ", I'll keep working to do better!"]

/-- Clarification templates (negative + clarity cues). -/
def clarityTemplates (author : String) : List String :=
  ["Thanks for pointing that out " ++ author ++ "! I'll try to explain better next time.",
   "Good feedback " ++ author ++ ", I'll work on making it clearer!",
   "Appreciate the input " ++ author ++ ", clarity is important!"]

/-- Generic acknowledgment templates (negative, no cue matched). -/
def genericNegativeTemplates (author : String) : List String :=
  ["Thanks for the feedback " ++ author ++ "! 🙏",
   "I appreciate your perspective " ++ author ++ ".",
   "Thank you for sharing your thoughts " ++ author ++ "!"]

/-- Neutral templates (sentiment neither positive nor negative). -/
def neutralTemplates (author : String) : List String :=
  ["Thanks for watching " ++ author ++ "! 😊",
   "Appreciate the comment " ++ author ++ "!",
   "Thanks for being here " ++ author ++ "! 🙏",
   "Great to see you " ++ author ++ "!"]

/-- `any(word in original_text for word in cues)`. -/
def anyCue (cues : List String) (text : String) : Bool :=
  cues.any (fun w => decide (pyIn w text))

/-- `_generate_fallback_response` from `comment_responder.py`: bucket
selection keyed on sentiment and lexical cues in the lowercased original
text, then a pseudo-random pick from the bucket (`choice` is the random
draw). -/
def generate_fallback_response (choice : Nat) (comment : Comment) : String :=
  let author := comment.author.getD "there"
  let sentiment := comment.sentiment.getD "neutral"
  let original_text := pyLower (comment.original_text.getD "")
  let responses :=
    if sentiment = "positive" then
      if anyCue ["thank", "thanks", "great", "awesome", "love", "amazing"] original_text then
        gratitudeTemplates author
      else if anyCue ["good", "nice", "well done", "excellent"] original_text then
        mildPraiseTemplates author
      else genericPositiveTemplates author
    else if sentiment = "negative" then
      if anyCue ["bad", "terrible", "hate", "worst"] original_text then
        criticismTemplates author
      else if anyCue ["confusing", "unclear", "hard"] original_text then
        clarityTemplates author
      else genericNegativeTemplates author
    else neutralTemplates author
  pick choice responses

/-- The response computed for one comment in `generate_comment_responses`:
with no credential the template fallback is used directly; with a
credential the LLM oracle `ai` answers (`none` models any exception, in
which case the source falls back to the template path). `i` is the index
of the comment in the loop, selecting the oracle answers for this
iteration. -/
def respondOne (key : Option String) (ai : Nat → Option String) (rand : Nat → Nat)
    (i : Nat) (c : Comment) : String :=
  match key with
  | none => generate_fallback_response (rand i) c
  | some _ =>
    match ai i with
    | some r => r
    | none => generate_fallback_response (rand i) c

/-- Heap-level `generate_comment_responses` from `comment_responder.py`:
the loop executes `comment['response'] = response` on each input record
(an in-place write to the comment dict) and the function returns the very
sequence it was given. -/
def generate_comment_responses (key : Option String) (ai : Nat → Option String)
    (rand : Nat → Nat) : List Comment → List Nat → Nat → List Comment × List Nat
  | h, [], _ => (h, [])
  | h, a :: as, i =>
    let c := heapGet h a
    let h1 := heapSet h a { c with response := some (respondOne key ai rand i c) }
    let res := generate_comment_responses key ai rand h1 as (i + 1)
    (res.1, a :: res.2)

/-- The aggregate response report of `get_response_summary`
(`comment_responder.py`): empty input yields the empty dict (`none`
here); otherwise responses longer than 30 characters are counted as AI
responses and the rest as template responses. -/
structure ResponseSummary where
  total_responses : Nat
  ai_responses : Nat
  template_responses : Nat
deriving DecidableEq

/-- Truthiness of `c.get('response')`: the key is present and non-empty. -/
def truthyResponse (c : Comment) : Bool :=
  c.response.getD "" ≠ ""

/-- `c.get('response') and len(c.get('response', '')) > 30`. -/
def looksLikeAiResponse (c : Comment) : Bool :=
  truthyResponse c && 30 < (c.response.getD "").length

/-- `get_response_summary` from `comment_responder.py`. -/
def get_response_summary (comments : List Comment) : Option ResponseSummary :=
  if comments = [] then none
  else
    let total := (comments.filter truthyResponse).length
    let ai := (comments.filter looksLikeAiResponse).length
    some { total_responses := total, ai_responses := ai, template_responses := total - ai }

/-- `summarize_with_groq` from `summarizer.py`. The LLM provider is the
oracle `groq`: `none` models an exception from the call (the function
then returns Python `None`), `some s` models the stripped completion
text. When no comment passes the meaningfulness test, the source returns
a fixed message without calling the provider. -/
def summarize_with_groq (groq : Option String) (comments : List Comment) : Option String :=
  let comments_text := (comments.take 50).filterMap (fun c =>
    let text := c.original_text.getD (c.text.getD "")
    if text ≠ "" ∧ 10 < (pyStrip text).length then some ("- " ++ pyTake 200 text) else none)
  if comments_text = [] then some "No meaningful comments found to summarize."
  else groq

/-- The sentiment-count loop of `summarize_locally`:
`sentiment_counts[sentiment] += 1` raises `KeyError` (modelled as
`Except.error`) for any sentiment other than the three initialized keys. -/
def stepSentimentCount (acc : Nat × Nat × Nat) (c : Comment) : Except Unit (Nat × Nat × Nat) :=
  let sentiment := c.sentiment.getD "neutral"
  if sentiment = "positive" then Except.ok (acc.1 + 1, acc.2.1, acc.2.2)
  else if sentiment = "negative" then Except.ok (acc.1, acc.2.1 + 1, acc.2.2)
  else if sentiment = "neutral" then Except.ok (acc.1, acc.2.1, acc.2.2 + 1)
  else Except.error ()

/-- Counts of positive/negative/neutral sentiments, or a `KeyError`. -/
def countSentiments (comments : List Comment) : Except Unit (Nat × Nat × Nat) :=
  comments.foldlM stepSentimentCount (0, 0, 0)

/-- One step of building `word_freq` (a Python dict in first-insertion
order): increment the word's count or append it with count 1. -/
def bumpWord : List (String × Nat) → String → List (String × Nat)
  | [], w => [(w, 1)]
  | (v, n) :: rest, w =>
    if v = w then (v, n + 1) :: rest else (v, n) :: bumpWord rest w

/-- `word_freq`: frequencies of words of length `> 3`, in first-insertion
order. -/
def buildFreq (ws : List String) : List (String × Nat) :=
  ws.foldl (fun acc w => if 3 < w.length then bumpWord acc w else acc) []

/-- Stable insertion for descending-count order (Python's stable
`sorted(..., key=count, reverse=True)`): an element coming from the left
is placed before equal-count elements already sorted to its right. -/
def insertDesc (x : String × Nat) : List (String × Nat) → List (String × Nat)
  | [] => [x]
  | y :: ys => if y.2 ≤ x.2 then x :: y :: ys else y :: insertDesc x ys

/-- Stable descending sort by count. -/
def sortDesc : List (String × Nat) → List (String × Nat)
  | [] => []
  | x :: xs => insertDesc x (sortDesc xs)

/-- `max(sentiment_counts.items(), key=...)`: the first key (in the dict
order positive, negative, neutral) with maximal count. -/
def dominantSentiment (pos neg neu : Nat) : String × Nat :=
  if neg ≤ pos ∧ neu ≤ pos then ("positive", pos)
  else if neu ≤ neg then ("negative", neg)
  else ("neutral", neu)

/-- Round half to even on an exact rational, as Python's float formatting
does for the nonnegative values produced here. -/
def roundHalfEvenQ (q : ℚ) : Int :=
  let f := ⌊q⌋
  let r := q - (f : ℚ)
  if 1 / 2 < r then f + 1
  else if r < 1 / 2 then f
  else if f % 2 = 0 then f else f + 1

/-- Python `f"{q:.1f}"` for the nonnegative percentages produced by the
local summarizer. -/
def formatPercent (q : ℚ) : String :=
  let n := (roundHalfEvenQ (q * 10)).toNat
  toString (n / 10) ++ "." ++ toString (n % 10)

/-- The summary string assembled by `summarize_locally` once the
sentiment counts are known. -/
def renderSummary (comments : List Comment) (counts : Nat × Nat × Nat) : String :=
  let total_comments := comments.length
  let all_text := String.intercalate " " ((comments.take 30).map (fun c =>
    c.processed_text.getD (c.original_text.getD "")))
  let words := pySplit (pyLower all_text)
  let word_freq := buildFreq words
  let top_words := (sortDesc word_freq).take 10
  let common_topics := (top_words.filter (fun p => 2 < p.2)).map (fun p => p.1)
  let dom := dominantSentiment counts.1 counts.2.1 counts.2.2
  let sentiment_percentage : ℚ := ((dom.2 : ℚ) / (total_comments : ℚ)) * 100
  "Analysis of " ++ toString total_comments ++ " comments shows a predominantly " ++
    dom.1 ++ " sentiment (" ++ formatPercent sentiment_percentage ++ "%). " ++
    (if common_topics = [] then ""
     else "Common topics discussed include: " ++
       String.intercalate ", " (common_topics.take 5) ++ ". ") ++
    "The comments contain " ++ toString counts.1 ++ " positive, " ++
    toString counts.2.1 ++ " negative, and " ++ toString counts.2.2 ++ " neutral responses."

/-- `summarize_locally` from `summarizer.py`: the whole body runs inside
`try/except`, so a `KeyError` in the count loop degrades to the fixed
error message. -/
def summarize_locally (comments : List Comment) : String :=
  if comments = [] then "No comments available for summarization."
  else
    match (countSentiments comments).map (renderSummary comments) with
    | Except.ok s => s
    | Except.error _ => "Unable to generate summary due to processing error."

/-- `generate_summary` from `summarizer.py`: with a non-blank credential,
try the LLM provider first and keep its answer only when truthy
(non-`None` and non-empty); otherwise fall back to the local summary. -/
def generate_summary (groq : Option String) (groq_api_key : Option String)
    (comments : List Comment) : String :=
  if comments = [] then "No comments available for summarization."
  else
    match groq_api_key with
    | some k =>
      if pyStrip k ≠ "" then
        match summarize_with_groq groq comments with
        | some s => if s ≠ "" then s else summarize_locally comments
        | none => summarize_locally comments
      else summarize_locally comments
    | none => summarize_locally comments

theorem dropWhile_self (p : Char → Bool) (l : List Char) :
    (l.dropWhile p).dropWhile p = l.dropWhile p := by
  induction l with
  | nil => rfl
  | cons c rest ih =>
    by_cases h : p c
    · rw [List.dropWhile_cons_of_pos h]; exact ih
    · rw [List.dropWhile_cons_of_neg h, List.dropWhile_cons_of_neg h]

theorem dropWhile_head_not (p : Char → Bool) (l : List Char) {c : Char} {t : List Char}
    (h : l.dropWhile p = c :: t) : p c = false := by
  induction l with
  | nil => simp at h
  | cons a rest ih =>
    by_cases ha : p a
    · rw [List.dropWhile_cons_of_pos ha] at h; exact ih h
    · rw [List.dropWhile_cons_of_neg ha] at h
      injection h with h1 _
      subst h1
      simpa using ha

theorem stripList_stripList (l : List Char) : stripList (stripList l) = stripList l := by
  unfold stripList
  generalize hY : l.dropWhile pyIsSpace = Y
  have hYfix : Y.dropWhile pyIsSpace = Y := by rw [← hY]; exact dropWhile_self _ _
  generalize hW : Y.reverse.dropWhile pyIsSpace = W
  have hWfix : W.dropWhile pyIsSpace = W := by rw [← hW]; exact dropWhile_self _ _
  have hpre : W.reverse <+: Y := by
    rw [← List.reverse_suffix, List.reverse_reverse, ← hW]
    exact List.dropWhile_suffix _
  have hZfix : W.reverse.dropWhile pyIsSpace = W.reverse := by
    cases hZ : W.reverse with
    | nil => simp
    | cons c t =>
      obtain ⟨u, hu⟩ := hpre
      rw [hZ] at hu
      have hqc : pyIsSpace c = false := by
        apply dropWhile_head_not pyIsSpace Y
        rw [hYfix, ← hu]
        rfl
      exact List.dropWhile_cons_of_neg (by simp [hqc])
  rw [hZfix, List.reverse_reverse, hWfix]

theorem mem_of_mem_stripList {c : Char} {l : List Char} (h : c ∈ stripList l) : c ∈ l := by
  unfold stripList at h
  rw [List.mem_reverse] at h
  have h1 : c ∈ (l.dropWhile pyIsSpace).reverse := List.dropWhile_subset _ h
  rw [List.mem_reverse] at h1
  exact List.dropWhile_subset _ h1

theorem chain'_of_chain'_stripList {R : Char → Char → Prop}
    (hsymm : ∀ a b, R a b → R b a) {l : List Char} (h : List.Chain' R l) :
    List.Chain' R (stripList l) := by
  unfold stripList
  have rev : ∀ m : List Char, List.Chain' R m → List.Chain' R m.reverse := by
    intro m hm
    rw [List.chain'_reverse]
    exact hm.imp (fun a b hab => hsymm a b hab)
  apply rev
  apply List.Chain'.suffix _ (List.dropWhile_suffix _)
  apply rev
  exact h.suffix (List.dropWhile_suffix _)

theorem collapse_mem {c : Char} (b : Bool) (l : List Char) (h : c ∈ collapseAux b l) :
    c = ' ' ∨ (c ∈ l ∧ pyIsSpace c = false) := by
  induction l generalizing b with
  | nil => simp [collapseAux] at h
  | cons a rest ih =>
    by_cases ha : pyIsSpace a
    · cases b with
      | true =>
        simp only [collapseAux, ha, if_true] at h
        rcases ih true h with h' | ⟨hm', hs⟩
        · exact Or.inl h'
        · exact Or.inr ⟨List.mem_cons_of_mem _ hm', hs⟩
      | false =>
        simp only [collapseAux, ha, if_true] at h
        rcases List.mem_cons.mp h with h' | h'
        · exact Or.inl h'
        · rcases ih true h' with h'' | ⟨hm', hs⟩
          · exact Or.inl h''
          · exact Or.inr ⟨List.mem_cons_of_mem _ hm', hs⟩
    · simp only [collapseAux, ha, if_false, Bool.false_eq_true] at h
      rcases List.mem_cons.mp h with h' | h'
      · subst h'
        exact Or.inr ⟨List.mem_cons_self _ _, by simpa using ha⟩
      · rcases ih false h' with h'' | ⟨hm', hs⟩
        · exact Or.inl h''
        · exact Or.inr ⟨List.mem_cons_of_mem _ hm', hs⟩

theorem collapse_true_head : ∀ (l : List Char) {c : Char} {t : List Char},
    collapseAux true l = c :: t → pyIsSpace c = false := by
  intro l
  induction l with
  | nil => intro c t h; simp [collapseAux] at h
  | cons a rest ih =>
    intro c t h
    by_cases ha : pyIsSpace a
    · simp only [collapseAux, ha, if_true] at h
      exact ih h
    · simp only [collapseAux, ha, if_false, Bool.false_eq_true] at h
      injection h with h1 _
      subst h1
      simpa using ha

theorem collapse_chain (l : List Char) :
    ∀ b, List.Chain' (fun x y => ¬(x = ' ' ∧ y = ' ')) (collapseAux b l) := by
  induction l with
  | nil => intro b; simp [collapseAux]
  | cons a rest ih =>
    intro b
    by_cases ha : pyIsSpace a
    · cases b with
      | true => simpa only [collapseAux, ha, if_true] using ih true
      | false =>
        simp only [collapseAux, ha, if_true, Bool.false_eq_true, if_false]
        rw [List.chain'_cons']
        refine ⟨?_, ih true⟩
        intro y hy
        cases hh : collapseAux true rest with
        | nil => rw [hh] at hy; simp at hy
        | cons d t =>
          rw [hh] at hy
          simp only [List.head?_cons, Option.mem_def, Option.some.injEq] at hy
          subst hy
          have hd := collapse_true_head rest hh
          rintro ⟨-, hy'⟩
          rw [hy'] at hd
          simp [pyIsSpace] at hd
    · simp only [collapseAux, ha, if_false, Bool.false_eq_true]
      rw [List.chain'_cons']
      refine ⟨?_, ih false⟩
      rintro y - ⟨h1, -⟩
      rw [h1] at ha
      exact ha (by simp [pyIsSpace])

theorem collapse_fixed (l : List Char)
    (hnorm : ∀ c ∈ l, pyIsSpace c = true → c = ' ')
    (hchain : List.Chain' (fun x y => ¬(x = ' ' ∧ y = ' ')) l) :
    collapseAux false l = l := by
  induction l with
  | nil => rfl
  | cons a rest ih =>
    have hrest_norm : ∀ c ∈ rest, pyIsSpace c = true → c = ' ' :=
      fun c hc => hnorm c (List.mem_cons_of_mem _ hc)
    have hrest_chain : List.Chain' (fun x y => ¬(x = ' ' ∧ y = ' ')) rest := hchain.tail
    by_cases ha : pyIsSpace a
    · have ha' : a = ' ' := hnorm a (List.mem_cons_self _ _) ha
      subst ha'
      simp only [collapseAux, ha, if_true]
      rw [show (if false = true then collapseAux true rest else ' ' :: collapseAux true rest) = ' ' :: collapseAux true rest from rfl]
      congr 1
      cases rest with
      | nil => rfl
      | cons d t =>
        have hd_ne : ¬(' ' = ' ' ∧ d = ' ') :=
          (List.chain'_cons'.mp hchain).1 d (by simp)
        have hd : d ≠ ' ' := fun h => hd_ne ⟨rfl, h⟩
        have hds : pyIsSpace d = false := by
          cases hq : pyIsSpace d
          · rfl
          · exact absurd (hrest_norm d (List.mem_cons_self _ _) hq) hd
        have hrec := ih hrest_norm hrest_chain
        simp only [collapseAux, hds, if_false, Bool.false_eq_true] at hrec ⊢
        exact hrec
    · simp only [collapseAux, ha, if_false, Bool.false_eq_true]
      rw [ih hrest_norm hrest_chain]

theorem rsc_data (s : String) :
    (remove_special_characters s).data = stripList (collapseSpaces (s.data.filter keepChar)) := rfl

theorem rsc_all_keep (s : String) : ∀ c ∈ (remove_special_characters s).data, keepChar c = true := by
  intro c hc
  rw [rsc_data] at hc
  have h1 : c ∈ collapseSpaces (s.data.filter keepChar) := mem_of_mem_stripList hc
  rcases collapse_mem false _ h1 with h' | ⟨hm', -⟩
  · subst h'; rfl
  · exact List.of_mem_filter hm'

theorem rsc_norm (s : String) :
    ∀ c ∈ (remove_special_characters s).data, pyIsSpace c = true → c = ' ' := by
  intro c hc hsp
  rw [rsc_data] at hc
  have h1 : c ∈ collapseSpaces (s.data.filter keepChar) := mem_of_mem_stripList hc
  rcases collapse_mem false _ h1 with h' | ⟨-, hs⟩
  · exact h'
  · rw [hsp] at hs; exact absurd hs (by simp)

theorem rsc_chain (s : String) :
    List.Chain' (fun x y => ¬(x = ' ' ∧ y = ' ')) (remove_special_characters s).data := by
  rw [rsc_data]
  exact chain'_of_chain'_stripList
    (fun a b hab ⟨h1, h2⟩ => hab ⟨h2, h1⟩)
    (collapse_chain _ false)

theorem string_eq_of_data {a b : String} (h : a.data = b.data) : a = b := by
  cases a; cases b; exact congrArg String.mk h

/-- C9: the Normalizer's character-stripping step
(`remove_special_characters`) is idempotent — applying it to its own
output returns that output unchanged. -/
theorem C9_strip_step_idempotent (t : String) :
    remove_special_characters (remove_special_characters t) = remove_special_characters t := by
  apply string_eq_of_data
  rw [rsc_data]
  rw [List.filter_eq_self.mpr (rsc_all_keep t)]
  rw [show collapseSpaces (remove_special_characters t).data = (remove_special_characters t).data from
    collapse_fixed _ (rsc_norm t) (rsc_chain t)]
  rw [rsc_data]
  exact stripList_stripList _

theorem pyStrip_pyStrip (s : String) : pyStrip (pyStrip s) = pyStrip s := by
  apply string_eq_of_data
  exact stripList_stripList s.data

theorem preprocess_comment_strip_fixed (stop : String → Bool) (lem : String → String)
    (b : Bool) (text : String) :
    pyStrip (preprocess_comment stop lem b text) = preprocess_comment stop lem b text := by
  unfold preprocess_comment
  by_cases h : text = ""
  · simp only [h, if_true]
    apply string_eq_of_data
    rfl
  · simp only [h, if_false]
    exact pyStrip_pyStrip _

theorem mem_preprocess_comments {stop : String → Bool} {lem : String → String}
    {b : Bool} {comments : List Comment} {pc : Comment}
    (h : pc ∈ preprocess_comments stop lem b comments) :
    keepComment pc = true ∧ ∃ c ∈ comments, pc = enrichComment stop lem b c := by
  induction comments with
  | nil => simp [preprocess_comments] at h
  | cons c rest ih =>
    simp only [preprocess_comments] at h
    by_cases hk : keepComment (enrichComment stop lem b c)
    · rw [if_pos hk] at h
      rcases List.mem_cons.mp h with h' | h'
      · subst h'
        exact ⟨hk, c, List.mem_cons_self _ _, rfl⟩
      · obtain ⟨hkeep, d, hd, hpc⟩ := ih h'
        exact ⟨hkeep, d, List.mem_cons_of_mem _ hd, hpc⟩
    · rw [if_neg hk] at h
      obtain ⟨hkeep, d, hd, hpc⟩ := ih h
      exact ⟨hkeep, d, List.mem_cons_of_mem _ hd, hpc⟩

theorem preprocess_comments_length_le (stop : String → Bool) (lem : String → String)
    (b : Bool) (comments : List Comment) :
    (preprocess_comments stop lem b comments).length ≤ comments.length := by
  induction comments with
  | nil => simp [preprocess_comments]
  | cons c rest ih =>
    simp only [preprocess_comments]
    split
    · simpa using ih
    · simp only [List.length_cons]
      omega

theorem enrich_processed_text (stop : String → Bool) (lem : String → String)
    (b : Bool) (c : Comment) :
    (enrichComment stop lem b c).processed_text =
      some (preprocess_comment stop lem b (c.text.getD "")) := rfl

/-- C5: every comment retained by the Normalizer has
`len(processed_text) > 3`; records whose processed text has length `≤ 3`
are absent from the output; and the output is never longer than the
input. -/
theorem C5_normalizer_filter (stop : String → Bool) (lem : String → String)
    (b : Bool) (comments : List Comment) :
    (∀ pc ∈ preprocess_comments stop lem b comments,
      3 < (pc.processed_text.getD "").length) ∧
    (∀ c ∈ comments,
      (preprocess_comment stop lem b (c.text.getD "")).length ≤ 3 →
      enrichComment stop lem b c ∉ preprocess_comments stop lem b comments) ∧
    (preprocess_comments stop lem b comments).length ≤ comments.length := by
  refine ⟨?_, ?_, preprocess_comments_length_le stop lem b comments⟩
  · intro pc hpc
    obtain ⟨hkeep, c, -, rfl⟩ := mem_preprocess_comments hpc
    have h3 : 3 < (pyStrip ((enrichComment stop lem b c).processed_text.getD "")).length := by
      simpa [keepComment] using hkeep
    rw [enrich_processed_text] at h3 ⊢
    rw [Option.getD_some] at h3 ⊢
    rwa [preprocess_comment_strip_fixed] at h3
  · intro c _hc hshort habs
    obtain ⟨hkeep, -⟩ := mem_preprocess_comments habs
    have h3 : 3 < (pyStrip ((enrichComment stop lem b c).processed_text.getD "")).length := by
      simpa [keepComment] using hkeep
    rw [enrich_processed_text, Option.getD_some, preprocess_comment_strip_fixed] at h3
    omega

/-- Witness for C5: a record whose processed text is too short
(`"ab"`, length 2 ≤ 3) is absent from the Normalizer's output. -/
theorem C5_normalizer_filter_witness :
    enrichComment (fun _ => false) (fun w => w) false { text := some "ab" } ∉
      preprocess_comments (fun _ => false) (fun w => w) false [{ text := some "ab" }] :=
  (C5_normalizer_filter (fun _ => false) (fun w => w) false [{ text := some "ab" }]).2.1
    { text := some "ab" } (by decide) (by decide)

/-- C3: the discrete tag computed by the classifier's success path is
`"positive"` exactly when the mapped `positive` score strictly exceeds
the `negative` score and `"negative"` otherwise; in particular the
`s = 0.5` edge (equal scores `0.5`/`0.5` from a raw `POSITIVE` at `0.5`)
is tagged `"negative"`. -/
theorem C3_discrete_tag_rule :
    (∀ (label : String) (s : ℚ),
      ((classifyPrediction { label := label, score := s }).sentiment = "positive" ↔
        (map_sentiment_label label s).negative < (map_sentiment_label label s).positive) ∧
      ((map_sentiment_label label s).positive ≤ (map_sentiment_label label s).negative →
        (classifyPrediction { label := label, score := s }).sentiment = "negative")) ∧
    map_sentiment_label "POSITIVE" (1 / 2) = { positive := 1 / 2, negative := 1 / 2 } ∧
    (classifyPrediction { label := "POSITIVE", score := 1 / 2 }).sentiment = "negative" := by
  refine ⟨?_, by norm_num [map_sentiment_label], by norm_num [classifyPrediction, map_sentiment_label]⟩
  intro label s
  constructor
  · by_cases h : (map_sentiment_label label s).negative < (map_sentiment_label label s).positive
    · simp [classifyPrediction, h]
    · simp [classifyPrediction, h]
  · intro hle
    have h : ¬((map_sentiment_label label s).negative < (map_sentiment_label label s).positive) :=
      not_lt.mpr hle
    simp [classifyPrediction, h]

/-- Witness for C3: the implication side applied at the concrete tie
`label = "POSITIVE"`, `s = 1/2`. -/
theorem C3_discrete_tag_rule_witness :
    (classifyPrediction { label := "POSITIVE", score := 1 / 2 }).sentiment = "negative" :=
  ((C3_discrete_tag_rule.1 "POSITIVE" (1 / 2)).2) (by norm_num [map_sentiment_label])

/-- C4: for every raw score `s ∈ [0, 1]`, `POSITIVE` maps to
`{positive: s, negative: 1-s}`, `NEGATIVE` to `{positive: 1-s,
negative: s}`, any other label to the fixed `{0.6, 0.4}` default, and in
every case the two scores sum to exactly 1. -/
theorem C4_label_mapping (s : ℚ) (h0 : 0 ≤ s) (h1 : s ≤ 1) :
    map_sentiment_label "POSITIVE" s = { positive := s, negative := 1 - s } ∧
    map_sentiment_label "NEGATIVE" s = { positive := 1 - s, negative := s } ∧
    (∀ label : String, label ≠ "POSITIVE" → label ≠ "NEGATIVE" →
      map_sentiment_label label s = { positive := 0.6, negative := 0.4 }) ∧
    (∀ label : String,
      (map_sentiment_label label s).positive + (map_sentiment_label label s).negative = 1) := by
  refine ⟨by simp [map_sentiment_label], by simp [map_sentiment_label], ?_, ?_⟩
  · intro label hp hn
    simp [map_sentiment_label, hp, hn]
  · intro label
    unfold map_sentiment_label
    split
    · simp
    · split
      · simp
      · norm_num

/-- Witness for C4 at `s = 1/2` and the unknown label `"NEUTRAL"`. -/
theorem C4_label_mapping_witness :
    map_sentiment_label "NEUTRAL" (1 / 2) = { positive := 0.6, negative := 0.4 } :=
  (C4_label_mapping (1 / 2) (by norm_num) (by norm_num)).2.2.1 "NEUTRAL"
    (by decide) (by decide)

/-- C10: when the sentiment model fails to load (`ModelUnavailable`,
modelled by the `none` pipeline oracle), `analyze_sentiment` returns its
input comment sequence unchanged — the very same list, hence same
length, order and fields, with no exception and no emptying. -/
theorem C10_model_unavailable_passthrough (comments : List Comment) :
    analyze_sentiment none comments = comments := by
  unfold analyze_sentiment
  by_cases h : comments = []
  · rw [if_pos h, h]
  · rw [if_neg h]

theorem fetchApiAux_length_le (server : Nat → Nat → ApiResponse) (max_results : Nat)
    (honors : ∀ p m, (server p m).items.length ≤ m) :
    ∀ (fuel page : Nat) (acc : List Comment), acc.length ≤ max_results →
      (fetchApiAux server max_results fuel page acc).length ≤ max_results := by
  intro fuel
  induction fuel with
  | zero => intro page acc hacc; exact hacc
  | succ n ih =>
    intro page acc hacc
    simp only [fetchApiAux]
    by_cases hlt : acc.length < max_results
    · rw [if_pos hlt]
      have hpage : ((server page (min (max_results - acc.length) 100)).items.map snippetToComment).length
          ≤ min (max_results - acc.length) 100 := by
        rw [List.length_map]
        exact honors _ _
      have hacc' : (acc ++ (server page (min (max_results - acc.length) 100)).items.map snippetToComment).length
          ≤ max_results := by
        rw [List.length_append]
        omega
      split
      · exact ih _ _ hacc'
      · exact hacc'
    · rw [if_neg hlt]
      exact hacc

theorem fetchDlAux_length_le (max_results : Nat) :
    ∀ (stream : List DlComment) (acc : List Comment), acc.length ≤ max_results →
      (fetchDlAux max_results stream acc).length ≤ max_results := by
  intro stream
  induction stream with
  | nil => intro acc hacc; exact hacc
  | cons d rest ih =>
    intro acc hacc
    simp only [fetchDlAux]
    by_cases hge : max_results ≤ acc.length
    · rw [if_pos hge]; exact hacc
    · rw [if_neg hge]
      apply ih
      rw [List.length_append]
      simp only [List.length_cons, List.length_nil]
      omega

/-- C6: both provider paths of the Comment Fetcher return at most
`max_results` records — the structured-API pagination loop (for any page
oracle that honors the requested page size, any amount of pagination
fuel) and the scraping-provider loop (for any stream,
unconditionally). -/
theorem C6_fetch_bounded (server : Nat → Nat → ApiResponse) (fuel max_results : Nat)
    (stream : List DlComment)
    (honors : ∀ p m, (server p m).items.length ≤ m) :
    (fetch_comments_api server fuel max_results).length ≤ max_results ∧
    (fetch_comments_downloader stream max_results).length ≤ max_results :=
  ⟨fetchApiAux_length_le server max_results honors fuel 0 [] (by simp),
   fetchDlAux_length_le max_results stream [] (by simp)⟩

/-- Witness for C6: a concrete two-item server page oracle and a
three-item stream, with `max_results = 2`. -/
theorem C6_fetch_bounded_witness :
    (fetch_comments_api (fun _ m => { items := List.replicate (min m 2) { textDisplay := "t", authorDisplayName := "a", likeCount := 3, publishedAt := "p" }, nextPageToken := true }) 5 2).length ≤ 2 ∧
    (fetch_comments_downloader [{ text := some "x" }, { text := some "y" }, { text := some "z" }] 2).length ≤ 2 :=
  C6_fetch_bounded _ 5 2 _ (fun p m => by simp [List.length_replicate])

theorem length_append_pos_left (a b : String) (ha : 0 < a.length) : 0 < (a ++ b).length := by
  rw [String.length_append]
  omega

theorem renderSummary_length_pos (comments : List Comment) (counts : Nat × Nat × Nat) :
    0 < (renderSummary comments counts).length := by
  simp only [renderSummary]
  repeat apply length_append_pos_left
  decide

theorem summarize_locally_length_pos (comments : List Comment) :
    0 < (summarize_locally comments).length := by
  unfold summarize_locally
  by_cases h : comments = []
  · rw [if_pos h]; decide
  · rw [if_neg h]
    cases hcs : countSentiments comments with
    | ok cts =>
      simp only [hcs, Except.map]
      exact renderSummary_length_pos _ _
    | error e =>
      simp only [hcs, Except.map]
      decide

/-- C7: for a non-empty comment sequence, whenever the LLM summarizer
provider call fails (raises, modelled by `none`) or returns an empty
string, `generate_summary` returns exactly the deterministic local
summary `summarize_locally`, which is a non-empty string; being a total
function, it raises nothing. -/
theorem C7_summary_fallback (groq : Option String) (key : Option String)
    (comments : List Comment) (hne : comments ≠ [])
    (hfail : summarize_with_groq groq comments = none ∨
      summarize_with_groq groq comments = some "") :
    generate_summary groq key comments = summarize_locally comments ∧
    0 < (summarize_locally comments).length := by
  refine ⟨?_, summarize_locally_length_pos comments⟩
  unfold generate_summary
  rw [if_neg hne]
  cases key with
  | none => rfl
  | some k =>
    show (if pyStrip k ≠ "" then
        match summarize_with_groq groq comments with
        | some s => if s ≠ "" then s else summarize_locally comments
        | none => summarize_locally comments
      else summarize_locally comments) = summarize_locally comments
    by_cases hk : pyStrip k ≠ ""
    · rw [if_pos hk]
      rcases hfail with hf | hf <;> rw [hf] <;> simp
    · rw [if_neg hk]

/-- Witness for C7: one meaningful comment, a supplied credential, and a
provider call that raises. -/
theorem C7_summary_fallback_witness :
    generate_summary none (some "gsk-key")
        [{ sentiment := some "positive", original_text := some "a wonderfully clear explanation" }] =
      summarize_locally
        [{ sentiment := some "positive", original_text := some "a wonderfully clear explanation" }] ∧
    0 < (summarize_locally
        [{ sentiment := some "positive", original_text := some "a wonderfully clear explanation" }]).length :=
  C7_summary_fallback none (some "gsk-key") _ (by decide) (Or.inl (by decide))

theorem pick_mem (choice : Nat) (responses : List String) (h : responses ≠ []) :
    pick choice responses ∈ responses := by
  unfold pick
  have hlen : 0 < responses.length := List.length_pos.mpr h
  have hmod : choice % responses.length < responses.length := Nat.mod_lt _ hlen
  rw [List.getD_eq_getElem?_getD, List.getElem?_eq_getElem hmod]
  exact List.getElem_mem _

theorem pyIn_thank {t : String} (h : pyIn "thank you" t) : pyIn "thank" t := by
  unfold pyIn at h ⊢
  have hp : "thank".data <+: "thank you".data := by decide
  exact hp.isInfix.trans h

/-- C8: a comment with `sentiment = "positive"` whose lowercased original
text contains `"thank you"` always receives its template-fallback
response from the fixed gratitude bucket, instantiated with the
comment's author name. -/
theorem C8_gratitude_bucket (choice : Nat) (c : Comment)
    (hs : c.sentiment = some "positive")
    (ht : pyIn "thank you" (pyLower (c.original_text.getD ""))) :
    generate_fallback_response choice c ∈ gratitudeTemplates (c.author.getD "there") := by
  have hcue : anyCue ["thank", "thanks", "great", "awesome", "love", "amazing"]
      (pyLower (c.original_text.getD "")) = true := by
    unfold anyCue
    simp only [List.any_cons]
    rw [decide_eq_true (pyIn_thank ht)]
    simp
  simp only [generate_fallback_response, hs, Option.getD_some, hcue, if_pos, if_true]
  exact pick_mem _ _ (by simp [gratitudeTemplates])

/-- Witness for C8: a concrete positive comment saying "Thank you so
much!" by author "Sam". -/
theorem C8_gratitude_bucket_witness :
    generate_fallback_response 1
        { author := some "Sam", sentiment := some "positive",
          original_text := some "Thank you so much!" } ∈ gratitudeTemplates "Sam" :=
  C8_gratitude_bucket 1
    { author := some "Sam", sentiment := some "positive",
      original_text := some "Thank you so much!" } rfl (by decide)

theorem heapGet_append_lt (h ext : List Comment) (a : Nat) (ha : a < h.length) :
    heapGet (h ++ ext) a = heapGet h a := by
  unfold heapGet
  rw [List.getD_eq_getElem?_getD, List.getD_eq_getElem?_getD, List.getElem?_append_left ha]

theorem heapGet_set_eq (h : List Comment) (a : Nat) (c : Comment) (ha : a < h.length) :
    heapGet (heapSet h a c) a = c := by
  unfold heapGet heapSet
  rw [List.getD_eq_getElem?_getD, List.getElem?_set_self ha]
  rfl

theorem heapGet_set_ne (h : List Comment) (a b : Nat) (c : Comment) (hab : a ≠ b) :
    heapGet (heapSet h b c) a = heapGet h a := by
  unfold heapGet heapSet
  rw [List.getD_eq_getElem?_getD, List.getD_eq_getElem?_getD,
    List.getElem?_set_ne (fun he => hab he.symm)]

theorem preprocess_heap_extends (stop : String → Bool) (lem : String → String) (b : Bool) :
    ∀ (addrs : List Nat) (h : List Comment),
      ∃ ext, (preprocess_comments_heap stop lem b h addrs).1 = h ++ ext := by
  intro addrs
  induction addrs with
  | nil => intro h; exact ⟨[], by simp [preprocess_comments_heap]⟩
  | cons a as ih =>
    intro h
    simp only [preprocess_comments_heap]
    obtain ⟨ext, hext⟩ := ih (h ++ [enrichComment stop lem b (heapGet h a)])
    exact ⟨[enrichComment stop lem b (heapGet h a)] ++ ext, by rw [hext, List.append_assoc]⟩

theorem gen_responses_addrs (key : Option String) (ai : Nat → Option String) (rand : Nat → Nat) :
    ∀ (as : List Nat) (h : List Comment) (i : Nat),
      (generate_comment_responses key ai rand h as i).2 = as := by
  intro as
  induction as with
  | nil => intro h i; rfl
  | cons a rest ih =>
    intro h i
    simp only [generate_comment_responses]
    rw [ih]

theorem gen_responses_heap_length (key : Option String) (ai : Nat → Option String)
    (rand : Nat → Nat) :
    ∀ (as : List Nat) (h : List Comment) (i : Nat),
      (generate_comment_responses key ai rand h as i).1.length = h.length := by
  intro as
  induction as with
  | nil => intro h i; rfl
  | cons a rest ih =>
    intro h i
    simp only [generate_comment_responses]
    rw [ih]
    unfold heapSet
    exact List.length_set h a _

theorem gen_responses_untouched (key : Option String) (ai : Nat → Option String)
    (rand : Nat → Nat) :
    ∀ (as : List Nat) (h : List Comment) (i a : Nat), a ∉ as →
      heapGet (generate_comment_responses key ai rand h as i).1 a = heapGet h a := by
  intro as
  induction as with
  | nil => intro h i a _; rfl
  | cons a' rest ih =>
    intro h i a ha
    simp only [generate_comment_responses]
    rw [ih _ (i + 1) a (fun hm => ha (List.mem_cons_of_mem _ hm))]
    exact heapGet_set_ne h a a' _ (fun he => ha (he ▸ List.mem_cons_self _ _))

theorem gen_responses_written (key : Option String) (ai : Nat → Option String)
    (rand : Nat → Nat) :
    ∀ (as : List Nat) (h : List Comment) (i a : Nat), a ∈ as → a < h.length →
      ∃ (j : Nat) (c : Comment),
        heapGet (generate_comment_responses key ai rand h as i).1 a =
          { c with response := some (respondOne key ai rand j c) } := by
  intro as
  induction as with
  | nil => intro h i a ha; simp at ha
  | cons a' rest ih =>
    intro h i a ha hlen
    simp only [generate_comment_responses]
    by_cases hmem : a ∈ rest
    · have hlen' : a < (heapSet h a' { heapGet h a' with
          response := some (respondOne key ai rand i (heapGet h a')) }).length := by
        unfold heapSet
        rw [List.length_set]
        exact hlen
      exact ih _ (i + 1) a hmem hlen'
    · have haa : a = a' := by
        rcases List.mem_cons.mp ha with h' | h'
        · exact h'
        · exact absurd h' hmem
      subst haa
      rw [gen_responses_untouched key ai rand rest _ (i + 1) a hmem]
      exact ⟨i, heapGet h a, heapGet_set_eq h a _ hlen⟩

/-- Counterexample to C2: the Response Generator does not return enriched
copies — running it on a one-record heap changes the record stored at the
input address (the source executes `comment['response'] = response` on
the input dict itself). -/
theorem C2_responder_copies_counterexample :
    heapGet (generate_comment_responses none (fun _ => none) (fun _ => 0)
        [{ text := some "hello", author := some "Ann" }] [0] 0).1 0 ≠
      heapGet [{ text := some "hello", author := some "Ann" }] 0 := by
  decide

/-- C2 (amended): the Normalizer does produce new copies and leaves every
record of its input sequence unchanged, but the Response Generator does
not: it writes the `response` field directly into its input records
(mutating them in place) and returns exactly the address sequence it was
given. -/
theorem C2_stage_ownership_amended :
    (∀ (stop : String → Bool) (lem : String → String) (b : Bool)
        (h : List Comment) (addrs : List Nat) (a : Nat), a < h.length →
        heapGet (preprocess_comments_heap stop lem b h addrs).1 a = heapGet h a) ∧
    (∀ (key : Option String) (ai : Nat → Option String) (rand : Nat → Nat)
        (h : List Comment) (addrs : List Nat) (i : Nat),
        (generate_comment_responses key ai rand h addrs i).2 = addrs) ∧
    (∀ (key : Option String) (ai : Nat → Option String) (rand : Nat → Nat)
        (h : List Comment) (addrs : List Nat) (i a : Nat), a ∈ addrs → a < h.length →
        ∃ (j : Nat) (c : Comment),
          heapGet (generate_comment_responses key ai rand h addrs i).1 a =
            { c with response := some (respondOne key ai rand j c) }) := by
  refine ⟨?_, ?_, ?_⟩
  · intro stop lem b h addrs a ha
    obtain ⟨ext, hext⟩ := preprocess_heap_extends stop lem b addrs h
    rw [hext]
    exact heapGet_append_lt h ext a ha
  · intro key ai rand h addrs i
    exact gen_responses_addrs key ai rand addrs h i
  · intro key ai rand h addrs i a ha hlen
    exact gen_responses_written key ai rand addrs h i a ha hlen

/-- Witness for C2 (amended) at a concrete one-record heap. -/
theorem C2_stage_ownership_amended_witness :
    heapGet (preprocess_comments_heap (fun _ => false) (fun w => w) false
        [{ text := some "hello world" }] [0]).1 0 = heapGet [{ text := some "hello world" }] 0 ∧
    (generate_comment_responses none (fun _ => none) (fun _ => 0)
        [{ text := some "hi" }] [0] 0).2 = [0] ∧
    ∃ (j : Nat) (c : Comment),
      heapGet (generate_comment_responses none (fun _ => none) (fun _ => 0)
          [{ text := some "hi" }] [0] 0).1 0 =
        { c with response := some (respondOne none (fun _ => none) (fun _ => 0) j c) } :=
  ⟨C2_stage_ownership_amended.1 (fun _ => false) (fun w => w) false
      [{ text := some "hello world" }] [0] 0 (by decide),
   C2_stage_ownership_amended.2.1 none (fun _ => none) (fun _ => 0) [{ text := some "hi" }] [0] 0,
   C2_stage_ownership_amended.2.2 none (fun _ => none) (fun _ => 0) [{ text := some "hi" }] [0] 0 0
     (by decide) (by decide)⟩

theorem append3_ne_empty (p author q : String) (hp : 0 < p.length) :
    p ++ author ++ q ≠ "" := by
  intro h
  have hlen := congrArg String.length h
  rw [String.length_append, String.length_append] at hlen
  have : String.length "" = 0 := rfl
  omega

theorem gratitude_pick_ne_empty (choice : Nat) (author : String) :
    pick choice (gratitudeTemplates author) ≠ "" := by
  have hm := pick_mem choice (gratitudeTemplates author) (by simp [gratitudeTemplates])
  simp only [gratitudeTemplates, List.mem_cons, List.not_mem_nil, or_false] at hm ⊢
  rcases hm with hm | hm | hm | hm <;> rw [hm] <;> exact append3_ne_empty _ _ _ (by decide)

theorem mildPraise_pick_ne_empty (choice : Nat) (author : String) :
    pick choice (mildPraiseTemplates author) ≠ "" := by
  have hm := pick_mem choice (mildPraiseTemplates author) (by simp [mildPraiseTemplates])
  simp only [mildPraiseTemplates, List.mem_cons, List.not_mem_nil, or_false] at hm ⊢
  rcases hm with hm | hm | hm <;> rw [hm] <;> exact append3_ne_empty _ _ _ (by decide)

theorem genericPositive_pick_ne_empty (choice : Nat) (author : String) :
    pick choice (genericPositiveTemplates author) ≠ "" := by
  have hm := pick_mem choice (genericPositiveTemplates author) (by simp [genericPositiveTemplates])
  simp only [genericPositiveTemplates, List.mem_cons, List.not_mem_nil, or_false] at hm ⊢
  rcases hm with hm | hm | hm <;> rw [hm] <;> exact append3_ne_empty _ _ _ (by decide)

theorem criticism_pick_ne_empty (choice : Nat) (author : String) :
    pick choice (criticismTemplates author) ≠ "" := by
  have hm := pick_mem choice (criticismTemplates author) (by simp [criticismTemplates])
  simp only [criticismTemplates, List.mem_cons, List.not_mem_nil, or_false] at hm ⊢
  rcases hm with hm | hm | hm <;> rw [hm] <;> exact append3_ne_empty _ _ _ (by decide)

theorem clarity_pick_ne_empty (choice : Nat) (author : String) :
    pick choice (clarityTemplates author) ≠ "" := by
  have hm := pick_mem choice (clarityTemplates author) (by simp [clarityTemplates])
  simp only [clarityTemplates, List.mem_cons, List.not_mem_nil, or_false] at hm ⊢
  rcases hm with hm | hm | hm <;> rw [hm] <;> exact append3_ne_empty _ _ _ (by decide)

theorem genericNegative_pick_ne_empty (choice : Nat) (author : String) :
    pick choice (genericNegativeTemplates author) ≠ "" := by
  have hm := pick_mem choice (genericNegativeTemplates author) (by simp [genericNegativeTemplates])
  simp only [genericNegativeTemplates, List.mem_cons, List.not_mem_nil, or_false] at hm ⊢
  rcases hm with hm | hm | hm <;> rw [hm] <;> exact append3_ne_empty _ _ _ (by decide)

theorem neutral_pick_ne_empty (choice : Nat) (author : String) :
    pick choice (neutralTemplates author) ≠ "" := by
  have hm := pick_mem choice (neutralTemplates author) (by simp [neutralTemplates])
  simp only [neutralTemplates, List.mem_cons, List.not_mem_nil, or_false] at hm ⊢
  rcases hm with hm | hm | hm | hm <;> rw [hm] <;> exact append3_ne_empty _ _ _ (by decide)

theorem generate_fallback_response_ne_empty (choice : Nat) (c : Comment) :
    generate_fallback_response choice c ≠ "" := by
  simp only [generate_fallback_response]
  split
  · split
    · exact gratitude_pick_ne_empty _ _
    · split
      · exact mildPraise_pick_ne_empty _ _
      · exact genericPositive_pick_ne_empty _ _
  · split
    · split
      · exact criticism_pick_ne_empty _ _
      · split
        · exact clarity_pick_ne_empty _ _
        · exact genericNegative_pick_ne_empty _ _
    · exact neutral_pick_ne_empty _ _

/-- Counterexample to C1: three comments with author "JonathanSmith" and
no credentials anywhere; the random draws select the neutral template
"Thanks for being here {author}! 🙏" (38 characters), so every template
response exceeds 30 characters and the report counts all three as
`ai_responses` — the claimed `ai_responses == 0, template_responses == 3`
report is not produced. -/
theorem C1_report_counterexample :
    get_response_summary ((generate_comment_responses none (fun _ => none) (fun _ => 2)
        [{ author := some "JonathanSmith" }, { author := some "JonathanSmith" },
         { author := some "JonathanSmith" }] [0, 1, 2] 0).2.map
      (heapGet (generate_comment_responses none (fun _ => none) (fun _ => 2)
        [{ author := some "JonathanSmith" }, { author := some "JonathanSmith" },
         { author := some "JonathanSmith" }] [0, 1, 2] 0).1)) ≠
      some { total_responses := 3, ai_responses := 0, template_responses := 3 } := by
  decide

/-- C1 (amended): for a run of 3 comments with no credential, every
comment receives a non-empty template-fallback response, and provided
each of those responses has at most 30 characters (the report's
heuristic counts any longer response as an AI response), the aggregate
report is exactly `{total_responses: 3, ai_responses: 0,
template_responses: 3}`. -/
theorem C1_no_credentials_report (h : List Comment) (addrs : List Nat)
    (ai : Nat → Option String) (rand : Nat → Nat)
    (hlen3 : addrs.length = 3)
    (hvalid : ∀ a ∈ addrs, a < h.length)
    (hshort : ∀ rec ∈ (generate_comment_responses none ai rand h addrs 0).2.map
        (heapGet (generate_comment_responses none ai rand h addrs 0).1),
      (rec.response.getD "").length ≤ 30) :
    get_response_summary ((generate_comment_responses none ai rand h addrs 0).2.map
        (heapGet (generate_comment_responses none ai rand h addrs 0).1)) =
      some { total_responses := 3, ai_responses := 0, template_responses := 3 } := by
  have haddrs := gen_responses_addrs none ai rand addrs h 0
  set h' := (generate_comment_responses none ai rand h addrs 0).1 with hh'
  rw [haddrs] at hshort ⊢
  have htruthy : ∀ rec ∈ addrs.map (heapGet h'), truthyResponse rec = true := by
    intro rec hrec
    rw [List.mem_map] at hrec
    obtain ⟨a, ha, rfl⟩ := hrec
    obtain ⟨j, c, hc⟩ := gen_responses_written none ai rand addrs h 0 a ha (hvalid a ha)
    rw [← hh'] at hc
    rw [hc]
    exact decide_eq_true (generate_fallback_response_ne_empty (rand j) c)
  have hai : ∀ rec ∈ addrs.map (heapGet h'), ¬(looksLikeAiResponse rec = true) := by
    intro rec hrec hla
    have hlen := hshort rec hrec
    simp only [looksLikeAiResponse, Bool.and_eq_true, decide_eq_true_eq] at hla
    omega
  unfold get_response_summary
  have hne : addrs.map (heapGet h') ≠ [] := by
    intro he
    have hl := congrArg List.length he
    rw [List.length_map, hlen3] at hl
    simp at hl
  rw [if_neg hne]
  rw [List.filter_eq_self.mpr htruthy]
  rw [List.filter_eq_nil_iff.mpr hai]
  simp [List.length_map, hlen3]

/-- Witness for C1 (amended): three comments by "Sam" with the random
draws selecting "Great to see you Sam!" (21 characters ≤ 30). -/
theorem C1_no_credentials_report_witness :
    get_response_summary ((generate_comment_responses none (fun _ => none) (fun _ => 3)
        [{ author := some "Sam" }, { author := some "Sam" }, { author := some "Sam" }]
        [0, 1, 2] 0).2.map
      (heapGet (generate_comment_responses none (fun _ => none) (fun _ => 3)
        [{ author := some "Sam" }, { author := some "Sam" }, { author := some "Sam" }]
        [0, 1, 2] 0).1)) =
      some { total_responses := 3, ai_responses := 0, template_responses := 3 } :=
  C1_no_credentials_report _ _ _ _ (by decide) (by decide) (by decide)
